import Mathlib

/-
Verification development for the v3 road-network reachability engine
(ROAD_NETWORK_CODE.js and the test-road overlay of TEST_ROAD_FEATURE.md).

The JavaScript source is embedded shallowly:
  * `Map` becomes an association list `List (String × α)`; `Map.set`
    replaces an existing binding in place or appends a fresh one, matching
    JavaScript insertion-order semantics.
  * `Set` of strings becomes a duplicate-free `List String` in insertion
    order.
  * JavaScript numbers that can be `undefined`, `NaN` or `Infinity` in the
    executions under study are modelled by the inductive type `JVal`;
    plain finite numbers are rationals (no computation in these claims
    depends on binary floating-point rounding).
  * a thrown `TypeError` is modelled by `JSErr.typeError`, returned next
    to the state the mutated receiver holds at the moment of the throw.
-/

set_option autoImplicit false

/-- Association-list read, modelling `Map.get` (absent key gives `none`,
the JavaScript `undefined`). -/
def mapGet {α : Type} (m : List (String × α)) (k : String) : Option α :=
  (m.find? (fun p => p.1 == k)).map (fun p => p.2)

/-- Association-list write, modelling `Map.set`: replace the binding if the
key is present, otherwise append it. -/
def mapSet {α : Type} (m : List (String × α)) (k : String) (v : α) :
    List (String × α) :=
  if m.any (fun p => p.1 == k) then
    m.map (fun p => if p.1 == k then (k, v) else p)
  else
    m ++ [(k, v)]

/-- Association-list delete, modelling `Map.delete`. -/
def mapDel {α : Type} (m : List (String × α)) (k : String) :
    List (String × α) :=
  m.filter (fun p => decide (¬ p.1 = k))

/-- Insertion-order set insert, modelling `Set.add`. -/
def setAdd (s : List String) (x : String) : List String :=
  if x ∈ s then s else s ++ [x]

/-- Set removal, modelling `Set.delete`. -/
def setDel (s : List String) (x : String) : List String :=
  s.filter (fun y => decide (¬ y = x))

/-- JavaScript numeric values reachable in the engine: a finite number,
`Infinity`, `NaN`, or `undefined` (a missing property / `Map.get` miss). -/
inductive JVal : Type
  | num (q : ℚ)
  | inf
  | nan
  | undef
deriving DecidableEq, Repr

/-- JavaScript `+` on the values above: finite sums stay finite, adding
`Infinity` to a number gives `Infinity`, and any operand that is `NaN` or
`undefined` (coerced to `NaN`) makes the result `NaN`. -/
def jadd : JVal → JVal → JVal
  | JVal.num a, JVal.num b => JVal.num (a + b)
  | JVal.num _, JVal.inf => JVal.inf
  | JVal.inf, JVal.num _ => JVal.inf
  | JVal.inf, JVal.inf => JVal.inf
  | _, _ => JVal.nan

/-- JavaScript `<`: any comparison involving `NaN` (hence also `undefined`)
is false. -/
def jlt : JVal → JVal → Bool
  | JVal.num a, JVal.num b => decide (a < b)
  | JVal.num _, JVal.inf => true
  | _, _ => false

/-- JavaScript `<=`: any comparison involving `NaN`/`undefined` is false;
`Infinity <= Infinity` is true. -/
def jle : JVal → JVal → Bool
  | JVal.num a, JVal.num b => decide (a ≤ b)
  | JVal.num _, JVal.inf => true
  | JVal.inf, JVal.inf => true
  | _, _ => false

/-- JavaScript `>` on these values, written as the flipped `<`. -/
def jgt (a b : JVal) : Bool :=
  jlt b a

/-- JavaScript truthiness of a numeric value: `0`, `NaN` and `undefined`
are falsy. -/
def jtruthy : JVal → Bool
  | JVal.num q => decide (q ≠ 0)
  | JVal.inf => true
  | _ => false

/-- A thrown JavaScript error. The source never defines the error kinds the
specification names (`EdgeEndpointMissing`, `SelfLoop`, `OriginNotFound`,
`FormatError`); the only failures it can produce are built-in `TypeError`s
(calling a method of `undefined`, or iterating a non-iterable). -/
inductive JSErr : Type
  | typeError
deriving DecidableEq, Repr

/-- Embeds `class RoadNode` (ROAD_NETWORK_CODE.js:4-12): id, coordinates,
the `connections` set of neighbour ids, and the boundary flag. -/
structure RoadNode : Type where
  id : String
  lng : ℚ
  lat : ℚ
  connections : List String
  isBoundary : Bool
deriving DecidableEq, Repr

/-- Embeds `class RoadEdge` (ROAD_NETWORK_CODE.js:15-22). The source fields
`from`/`to` become `fromId`/`toId` (`from` is reserved in Lean);
`time = length / 83.33 * 60` is computed at construction. -/
structure RoadEdge : Type where
  fromId : String
  toId : String
  length : ℚ
  time : ℚ
deriving DecidableEq, Repr

/-- Constructor of `RoadEdge`, deriving the walk time from the length
exactly as ROAD_NETWORK_CODE.js:20 does. -/
def RoadEdge.make (fromId toId : String) (len : ℚ) : RoadEdge :=
  { fromId := fromId, toId := toId, length := len, time := len / 83.33 * 60 }

/-- Embeds `class RoadNetwork` (ROAD_NETWORK_CODE.js:25-139): the node map,
the edge map keyed by the directional string `from + '-' + to`, the
adjacency map, and the id counter. -/
structure RoadNetwork : Type where
  nodes : List (String × RoadNode)
  edges : List (String × RoadEdge)
  adjList : List (String × List String)
  nextNodeId : ℕ
deriving DecidableEq, Repr

/-- The freshly constructed network (ROAD_NETWORK_CODE.js:26-31). -/
def RoadNetwork.empty : RoadNetwork :=
  { nodes := [], edges := [], adjList := [], nextNodeId := 1 }

/-- Embeds `RoadNetwork.addNode` (ROAD_NETWORK_CODE.js:34-40): mints the id
`'n_' + nextNodeId`, stores the node and an empty adjacency set, increments
the counter, and returns the new node's id. -/
def addNode (net : RoadNetwork) (lng lat : ℚ) : RoadNetwork × String :=
  let id := "n_" ++ toString net.nextNodeId
  ({ nodes := mapSet net.nodes id
        { id := id, lng := lng, lat := lat, connections := [], isBoundary := false },
     edges := net.edges,
     adjList := mapSet net.adjList id [],
     nextNodeId := net.nextNodeId + 1 }, id)

/-- One guarded adjacency deletion of `removeEdge`
(ROAD_NETWORK_CODE.js:76-81): `if (adjList.has(a)) adjList.get(a).delete(b)`. -/
def delAdjRef (net : RoadNetwork) (a b : String) : RoadNetwork :=
  match mapGet net.adjList a with
  | some s => { net with adjList := mapSet net.adjList a (setDel s b) }
  | none => net

/-- One guarded connection deletion of `removeEdge`
(ROAD_NETWORK_CODE.js:83-88): `if (nodes.has(a)) nodes.get(a).connections.delete(b)`. -/
def delConnRef (net : RoadNetwork) (a b : String) : RoadNetwork :=
  match mapGet net.nodes a with
  | some nd => { net with nodes := mapSet net.nodes a { nd with connections := setDel nd.connections b } }
  | none => net

/-- Embeds `RoadNetwork.removeEdge` (ROAD_NETWORK_CODE.js:70-89): deletes
both directional keys from the edge map, then—in source order and guarded
by presence checks—removes each endpoint from the other's adjacency set and
`connections` set. -/
def removeEdge (net : RoadNetwork) (fromId toId : String) : RoadNetwork :=
  delConnRef (delConnRef (delAdjRef (delAdjRef
      { net with edges := mapDel (mapDel net.edges (fromId ++ "-" ++ toId)) (toId ++ "-" ++ fromId) }
      fromId toId) toId fromId) fromId toId) toId fromId

/-- Embeds `RoadNetwork.removeNode` (ROAD_NETWORK_CODE.js:43-54): no-op when
the id is absent; otherwise `removeEdge` is applied to every recorded
neighbour (the `connections` set is iterated in order; `removeEdge` only
ever deletes the entry currently being visited from that set, so folding
over the initial list matches the JavaScript `Set.forEach`), and finally
the node and its adjacency entry are deleted. -/
def removeNode (net : RoadNetwork) (id : String) : RoadNetwork :=
  match mapGet net.nodes id with
  | none => net
  | some nd =>
    let net1 := nd.connections.foldl (fun acc nb => removeEdge acc id nb) net
    { net1 with nodes := mapDel net1.nodes id, adjList := mapDel net1.adjList id }

/-- Embeds `RoadNetwork.addEdge` (ROAD_NETWORK_CODE.js:57-67). The source
performs no validation: it first stores the edge under the directional key,
then dereferences `nodes.get(fromId)`, `nodes.get(toId)`,
`adjList.get(fromId)` and `adjList.get(toId)` in that order; any miss throws
a `TypeError`, with every mutation made so far already applied. The network
reached at the throw is returned alongside the error. -/
def addEdge (net : RoadNetwork) (fromId toId : String) (len : ℚ) :
    RoadNetwork × Option JSErr :=
  let edgeId := fromId ++ "-" ++ toId
  let n1 : RoadNetwork := { net with edges := mapSet net.edges edgeId (RoadEdge.make fromId toId len) }
  match mapGet n1.nodes fromId with
  | none => (n1, some JSErr.typeError)
  | some nf =>
    let n2 : RoadNetwork := { n1 with nodes := mapSet n1.nodes fromId { nf with connections := setAdd nf.connections toId } }
    match mapGet n2.nodes toId with
    | none => (n2, some JSErr.typeError)
    | some nt =>
      let n3 : RoadNetwork := { n2 with nodes := mapSet n2.nodes toId { nt with connections := setAdd nt.connections fromId } }
      match mapGet n3.adjList fromId with
      | none => (n3, some JSErr.typeError)
      | some sf =>
        let n4 : RoadNetwork := { n3 with adjList := mapSet n3.adjList fromId (setAdd sf toId) }
        match mapGet n4.adjList toId with
        | none => (n4, some JSErr.typeError)
        | some st =>
          ({ n4 with adjList := mapSet n4.adjList toId (setAdd st fromId) }, none)

/-- Embeds `RoadNetwork.getNode` (ROAD_NETWORK_CODE.js:92-94). -/
def getNode (net : RoadNetwork) (id : String) : Option RoadNode :=
  mapGet net.nodes id

/-- An entry of the priority queue of ROAD_NETWORK_CODE.js:142-159: the
`enqueue` call stores exactly the fields `node` and `priority`. -/
structure PQItem : Type where
  node : String
  priority : JVal
deriving DecidableEq, Repr

/-- Comparator outcome of `(a, b) => a.priority - b.priority` interpreted as
"keep `a` no later than `b`": true when the difference is `<= 0` or `NaN`
(the ECMAScript sort treats a `NaN` comparator result as `0`). -/
def pqKeep (a b : JVal) : Bool :=
  match a, b with
  | JVal.num x, JVal.num y => decide (x ≤ y)
  | JVal.num _, JVal.inf => true
  | JVal.inf, JVal.num _ => false
  | _, _ => true

/-- Embeds `PriorityQueue.enqueue` (ROAD_NETWORK_CODE.js:147-150): pushing
onto an already-sorted array and stably re-sorting by priority is a stable
sorted insertion. -/
def pqEnqueue (pq : List PQItem) (node : String) (priority : JVal) : List PQItem :=
  let rec ins (x : PQItem) : List PQItem → List PQItem
    | [] => [x]
    | y :: ys => if pqKeep y.priority x.priority then y :: ins x ys else x :: y :: ys
  ins { node := node, priority := priority } pq

/-- Mutable state of the `while` loop of `DijkstraSearch.search`
(ROAD_NETWORK_CODE.js:169-207). -/
structure LoopState : Type where
  distances : List (String × JVal)
  previous : List (String × String)
  visited : List String
  pq : List PQItem
deriving DecidableEq, Repr

/-- Embeds `DijkstraSearch.findEdge` (ROAD_NETWORK_CODE.js:223-226): look up
the edge under either directional key. -/
def findEdge (net : RoadNetwork) (fromId toId : String) : Option RoadEdge :=
  match mapGet net.edges (fromId ++ "-" ++ toId) with
  | some e => some e
  | none => mapGet net.edges (toId ++ "-" ++ fromId)

/-- The neighbour-relaxation body of ROAD_NETWORK_CODE.js:192-206, for one
neighbour: skip visited neighbours and missing edges, otherwise compute
`newDist = currentDist + edge.time` and, when it strictly lowers the stored
tentative distance, update `distances`/`previous` and enqueue. -/
def relaxNeighbor (net : RoadNetwork) (currentNodeId : String) (currentDist : JVal)
    (s : LoopState) (neighborId : String) : LoopState :=
  if neighborId ∈ s.visited then s
  else
    match findEdge net currentNodeId neighborId with
    | none => s
    | some e =>
      let newDist := jadd currentDist (JVal.num e.time)
      if jlt newDist ((mapGet s.distances neighborId).getD JVal.undef) then
        { s with distances := mapSet s.distances neighborId newDist,
                 previous := mapSet s.previous neighborId currentNodeId,
                 pq := pqEnqueue s.pq neighborId newDist }
      else s

/-- One iteration of the `while (!pq.isEmpty())` loop
(ROAD_NETWORK_CODE.js:181-207). The source destructures
`{ node: currentNodeId, dist: currentDist }` from the dequeued entry, but
the entry holds only `node` and `priority`, so `currentDist` is the
JavaScript `undefined` on every iteration. -/
def searchStep (net : RoadNetwork) (maxTimeSeconds : ℚ) (st : LoopState) : LoopState :=
  match st.pq with
  | [] => st
  | item :: rest =>
    let currentNodeId := item.node
    let currentDist : JVal := JVal.undef
    if currentNodeId ∈ st.visited then { st with pq := rest }
    else
      let st1 : LoopState := { st with pq := rest, visited := setAdd st.visited currentNodeId }
      if jgt currentDist (JVal.num maxTimeSeconds) then st1
      else
        let neighbors := (mapGet net.adjList currentNodeId).getD []
        neighbors.foldl (relaxNeighbor net currentNodeId currentDist) st1

/-- The loop of ROAD_NETWORK_CODE.js:181-207, run with explicit fuel; it
stops as soon as the queue is empty. `search_loop_terminates` (claim C10)
shows a single unit of fuel already drains the queue, so any positive fuel
computes the exact JavaScript result. -/
def searchGo (net : RoadNetwork) (maxTimeSeconds : ℚ) : ℕ → LoopState → LoopState
  | 0, st => st
  | fuel + 1, st =>
    match st.pq with
    | [] => st
    | _ :: _ => searchGo net maxTimeSeconds fuel (searchStep net maxTimeSeconds st)

/-- The initialisation of `DijkstraSearch.search`
(ROAD_NETWORK_CODE.js:169-179): every node of the network starts at
`Infinity`, the start id is set to `0` (whether or not it is a node), and
the start id is enqueued with priority `0`. -/
def initState (net : RoadNetwork) (startNodeId : String) : LoopState :=
  let d0 := net.nodes.foldl (fun m p => mapSet m p.2.id JVal.inf) []
  { distances := mapSet d0 startNodeId (JVal.num 0),
    previous := [],
    visited := [],
    pq := pqEnqueue [] startNodeId (JVal.num 0) }

/-- One element of the `reachableNodes` output
(ROAD_NETWORK_CODE.js:214-218). -/
structure ReachableEntry : Type where
  nodeId : String
  node : Option RoadNode
  distance : JVal
deriving DecidableEq, Repr

/-- The value returned by `DijkstraSearch.search`
(ROAD_NETWORK_CODE.js:209-219). -/
structure SearchResult : Type where
  distances : List (String × JVal)
  previous : List (String × String)
  reachableNodes : List ReachableEntry
deriving DecidableEq, Repr

/-- Embeds `DijkstraSearch.search` (ROAD_NETWORK_CODE.js:168-220). The
`reachableNodes` view keeps the entries whose distance satisfies
`dist <= maxTimeSeconds && dist` — the conjunction with the truthiness of
`dist` is the source's filter, verbatim. -/
def search (net : RoadNetwork) (startNodeId : String) (maxTimeSeconds : ℚ) : SearchResult :=
  let final := searchGo net maxTimeSeconds (net.nodes.length + 1) (initState net startNodeId)
  { distances := final.distances,
    previous := final.previous,
    reachableNodes :=
      (final.distances.filter
          (fun p => jle p.2 (JVal.num maxTimeSeconds) && jtruthy p.2)).map
        (fun p => { nodeId := p.1, node := getNode net p.1, distance := p.2 }) }

/-- The JSON value found in a serialized node's `connections` field.
`JSON.stringify` turns a JavaScript `Set` into an empty object `{}` (a Set
has no enumerable own properties), so `exportToJSON` always emits
`ConnJson.emptyObj` there; a hand-written snapshot may instead omit the
field (`absent`, i.e. `undefined` after parsing) or give an array. -/
inductive ConnJson : Type
  | absent
  | emptyObj
  | arr (l : List String)
deriving DecidableEq, Repr

/-- A parsed node record of the snapshot format (see the export at
ROAD_NETWORK_CODE.js:107-112). -/
structure SnapNode : Type where
  id : String
  lng : ℚ
  lat : ℚ
  isBoundary : Bool
  connections : ConnJson
deriving DecidableEq, Repr

/-- A parsed edge record of the snapshot format. -/
structure SnapEdge : Type where
  fromId : String
  toId : String
  length : ℚ
  time : ℚ
deriving DecidableEq, Repr

/-- A parsed snapshot: the result of `JSON.parse` on the string produced by
`exportToJSON`, or any hand-written snapshot of the same shape. -/
structure Snapshot : Type where
  nodes : List SnapNode
  edges : List SnapEdge
deriving DecidableEq, Repr

/-- Embeds `RoadNetwork.exportToJSON` (ROAD_NETWORK_CODE.js:107-112)
composed with `JSON.parse`: the node values are serialized field by field,
with each `connections` Set degenerating to the empty object. -/
def exportToJSON (net : RoadNetwork) : Snapshot :=
  { nodes := net.nodes.map (fun p =>
      { id := p.2.id, lng := p.2.lng, lat := p.2.lat,
        isBoundary := p.2.isBoundary, connections := ConnJson.emptyObj }),
    edges := net.edges.map (fun p =>
      { fromId := p.2.fromId, toId := p.2.toId,
        length := p.2.length, time := p.2.time }) }

/-- The decimal value of the longest digit prefix of a string, modelling
`parseInt` on the strings the import can meet (`none` stands for `NaN`). -/
def parseIntOpt (s : String) : Option ℕ :=
  let ds := s.toList.takeWhile (fun c => c.isDigit)
  if ds.isEmpty then none
  else some (ds.foldl (fun n c => 10 * n + (c.toNat - 48)) 0)

/-- Models `parseInt(id.split('_')[1])` of ROAD_NETWORK_CODE.js:128.
A `none` is JavaScript `NaN`; the importer below keeps the counter
unchanged in that case, whereas JavaScript would poison it to `NaN` — no
theorem in this file reaches that branch (every exercised import either
carries well-formed `n_k` ids or throws before this line). -/
def idSuffix (id : String) : Option ℕ :=
  match id.splitOn "_" with
  | _ :: s :: _ => parseIntOpt s
  | _ => none

/-- Models `new Set(node.connections || [])` of ROAD_NETWORK_CODE.js:125:
a missing field falls back to the empty array; an array is deduplicated in
order; the empty object produced by `exportToJSON` is not iterable, so the
`Set` constructor throws a `TypeError`. -/
def connSetOfJson : ConnJson → Except JSErr (List String)
  | ConnJson.absent => Except.ok []
  | ConnJson.emptyObj => Except.error JSErr.typeError
  | ConnJson.arr l => Except.ok (l.foldl setAdd [])

/-- The node-loop body of `importFromJSON` (ROAD_NETWORK_CODE.js:122-129).
On a throw the partially rebuilt network is returned with the error. -/
def importNode (acc : RoadNetwork) (sn : SnapNode) :
    Except (RoadNetwork × JSErr) RoadNetwork :=
  match connSetOfJson sn.connections with
  | Except.error e => Except.error (acc, e)
  | Except.ok conns =>
    Except.ok
      { acc with
        nodes := mapSet acc.nodes sn.id
          { id := sn.id, lng := sn.lng, lat := sn.lat,
            connections := conns, isBoundary := sn.isBoundary },
        adjList := mapSet acc.adjList sn.id [],
        nextNodeId :=
          match idSuffix sn.id with
          | some k => max acc.nextNodeId (k + 1)
          | none => acc.nextNodeId }

/-- The edge-loop body of `importFromJSON` (ROAD_NETWORK_CODE.js:131-135):
the edge record is stored under its directional key first; then
`adjList.get(edge.from).add(edge.to)` and the symmetric call each throw a
`TypeError` when the endpoint has no adjacency entry. -/
def importEdge (acc : RoadNetwork) (se : SnapEdge) :
    Except (RoadNetwork × JSErr) RoadNetwork :=
  let newEdge : RoadEdge :=
    { fromId := se.fromId, toId := se.toId, length := se.length, time := se.time }
  let acc1 : RoadNetwork :=
    { acc with edges := mapSet acc.edges (se.fromId ++ "-" ++ se.toId) newEdge }
  match mapGet acc1.adjList se.fromId with
  | none => Except.error (acc1, JSErr.typeError)
  | some s =>
    let acc2 : RoadNetwork :=
      { acc1 with adjList := mapSet acc1.adjList se.fromId (setAdd s se.toId) }
    match mapGet acc2.adjList se.toId with
    | none => Except.error (acc2, JSErr.typeError)
    | some s2 =>
      Except.ok { acc2 with adjList := mapSet acc2.adjList se.toId (setAdd s2 se.fromId) }

/-- Embeds `RoadNetwork.importFromJSON` (ROAD_NETWORK_CODE.js:115-138),
applied to an already-parsed snapshot. The method clears the receiver's
maps and resets the counter *before* reading any record, so the network it
was called on is destroyed even when a later record throws. The result is
the receiver's final state plus the error, if one was thrown. -/
def importFromJSON (_net : RoadNetwork) (data : Snapshot) :
    RoadNetwork × Option JSErr :=
  let cleared : RoadNetwork := { nodes := [], edges := [], adjList := [], nextNodeId := 1 }
  match data.nodes.foldlM importNode cleared with
  | Except.error (st, e) => (st, some e)
  | Except.ok afterNodes =>
    match data.edges.foldlM importEdge afterNodes with
    | Except.error (st, e) => (st, some e)
    | Except.ok final => (final, none)

/-- A geographic coordinate, as the `{lng, lat}` objects of
TEST_ROAD_FEATURE.md. -/
structure GeoPoint : Type where
  lng : ℚ
  lat : ℚ
deriving DecidableEq, Repr

/-- Embeds `class TestRoad` (TEST_ROAD_FEATURE.md:33-42). `length` is
computed by the haversine `calculateDistance` and `walkTime = length/83.3`
(minutes); both are trigonometric, so the fields carry the already-computed
values and no claim below depends on their numeric relation to the
endpoints. -/
structure TestRoad : Type where
  id : ℕ
  startPoint : GeoPoint
  endPoint : GeoPoint
  length : ℚ
  walkTime : ℚ
  status : String
deriving DecidableEq, Repr

/-- The original-search result consumed by `enhanceWithTestRoads`
(TEST_ROAD_FEATURE.md:131-162): boundary points, the polygon used by the
point-in-polygon test, and the search centre. -/
structure OriginalResult : Type where
  boundaryPoints : List GeoPoint
  polygon : List GeoPoint
  center : GeoPoint
deriving DecidableEq, Repr

/-- Embeds `AccessibilitySearcher.enhanceWithTestRoads`
(TEST_ROAD_FEATURE.md:131-162) up to the boundary-point set it builds.
`isPtInPoly` abstracts `isPointInPolygon` (declared but not defined in the
repository) and `new Set(originalResult.boundaryPoints)` copies the point
list. For each active road whose endpoints straddle the boundary and whose
`walkTime` is within the budget, the source calls
`enhancedBoundaryPoints.push(...)` — but a JavaScript `Set` has no `push`
method, so that call throws a `TypeError`. -/
def enhanceWithTestRoads (isPtInPoly : GeoPoint → List GeoPoint → Bool)
    (originalResult : OriginalResult) (testRoads : List TestRoad)
    (maxTimeMinutes : ℚ) : Except JSErr (List GeoPoint) :=
  testRoads.foldlM
    (fun pts road =>
      let startAccessible := isPtInPoly road.startPoint originalResult.polygon
      let endAccessible := isPtInPoly road.endPoint originalResult.polygon
      if startAccessible && !endAccessible then
        if road.walkTime ≤ maxTimeMinutes then Except.error JSErr.typeError
        else Except.ok pts
      else if !startAccessible && endAccessible then
        if road.walkTime ≤ maxTimeMinutes then Except.error JSErr.typeError
        else Except.ok pts
      else Except.ok pts)
    originalResult.boundaryPoints

/-- A network holding the single node `n_1` at (1, 2). -/
def net1 : RoadNetwork := (addNode RoadNetwork.empty 1 2).1

/-- A network holding `n_1` at (0,0) and `n_2` at (1,0), no edges. -/
def netAB : RoadNetwork := (addNode (addNode RoadNetwork.empty 0 0).1 1 0).1

/-- The three-node line of the specification's concrete scenario: nodes
`n_1`, `n_2`, `n_3` in a row with 100 m edges `n_1–n_2` and `n_2–n_3`
(both `addEdge` calls succeed, all endpoints exist). -/
def netABC : RoadNetwork :=
  (addEdge ((addEdge ((addNode netAB 2 0).1) "n_1" "n_2" 100).1) "n_2" "n_3" 100).1

/-- Claim C1: the specification says `search(origin, budget)` always
contains the origin with distance 0 and that distance 0 is never treated as
absence. The code refutes it: on the one-node network the origin's recorded
distance is `0`, yet `reachableNodes` is empty, because the filter
`dist <= maxTimeSeconds && dist` (ROAD_NETWORK_CODE.js:213) treats the
falsy distance `0` as absence and drops the origin. -/
theorem search_drops_origin_with_distance_zero :
    mapGet (search net1 "n_1" 100).distances "n_1" = some (JVal.num 0) ∧
    (search net1 "n_1" 100).reachableNodes = [] := by decide

/-- Claim C2: the specification's line scenario expects
`search(A, 100) = {A:0, B:72}` and `search(A, 150) = {A:0, B:72, C:144}`.
The code refutes it: the loop destructures the field `dist` from queue
entries that store `priority` (ROAD_NETWORK_CODE.js:182), so every
tentative distance is `undefined + time = NaN`, no neighbour is ever
relaxed (`n_2` stays at `Infinity`), and the truthiness filter drops the
origin: both searches return an empty reachable set. -/
theorem search_line_scenario_returns_empty :
    (search netABC "n_1" 100).reachableNodes = [] ∧
    (search netABC "n_1" 150).reachableNodes = [] ∧
    mapGet (search netABC "n_1" 150).distances "n_2" = some JVal.inf := by decide

/-- Claim C7: the specification says `search` fails with `OriginNotFound`
when the origin id is absent. The code refutes it: no such check exists,
the phantom origin is even given distance 0 and a full `SearchResult` is
produced. -/
theorem search_missing_origin_produces_result :
    (search net1 "ghost" 100).distances = [("n_1", JVal.inf), ("ghost", JVal.num 0)] ∧
    (search net1 "ghost" 100).reachableNodes = [] := by decide

/-- Claim C6: the specification says `addEdge` rejects a missing endpoint
with `EdgeEndpointMissing` and a self-loop with `SelfLoop`, in both cases
leaving the network unchanged. The code refutes it: with endpoint `n_2`
absent it throws a bare `TypeError` only *after* storing the edge in the
edge map (the network is changed), and the self-loop `addEdge(n_1, n_1)`
succeeds outright. -/
theorem addEdge_unvalidated_mutates_and_accepts_self_loop :
    (addEdge net1 "n_1" "n_2" 100).2 = some JSErr.typeError ∧
    (addEdge net1 "n_1" "n_2" 100).1.edges.map (fun p => p.1) = ["n_1-n_2"] ∧
    net1.edges = [] ∧
    (addEdge net1 "n_1" "n_1" 50).2 = none ∧
    (addEdge net1 "n_1" "n_1" 50).1.edges.map (fun p => p.1) = ["n_1-n_1"] := by decide

/-- Claim C8: the specification says an edge's identity is the canonical
unordered endpoint pair, with a re-add in either direction overwriting
(last write wins). The code refutes it: keys are the directional strings
`from + '-' + to`, so adding `n_1–n_2` and then `n_2–n_1` stores two
distinct edges for the same unordered pair, with different lengths. -/
theorem addEdge_directional_keys_duplicate :
    ((addEdge ((addEdge netABC "n_1" "n_2" 100).1) "n_2" "n_1" 200).1).edges.map
        (fun p => (p.1, p.2.fromId, p.2.toId, p.2.length)) =
      [("n_1-n_2", "n_1", "n_2", (100 : ℚ)),
       ("n_2-n_3", "n_2", "n_3", (100 : ℚ)),
       ("n_2-n_1", "n_2", "n_1", (200 : ℚ))] := by decide

/-- Claim C4: the specification says `importSnapshot(exportSnapshot(net))`
reproduces the network. The code refutes it for every network with at
least one node: `JSON.stringify` serializes each node's `connections` Set
as the empty object, and on import `new Set(node.connections || [])`
(ROAD_NETWORK_CODE.js:125) receives that non-iterable truthy object and
throws a `TypeError`; the receiver is left cleared, nothing is restored. -/
theorem roundTrip_throws_typeError :
    importFromJSON net1 (exportToJSON net1) =
      ({ nodes := [], edges := [], adjList := [], nextNodeId := 1 },
       some JSErr.typeError) := by decide

/-- The malformed snapshot of claim C5: an edge whose endpoints appear in
no node record. -/
def badSnapshot : Snapshot :=
  { nodes := [],
    edges := [{ fromId := "x", toId := "y", length := 5, time := 4 }] }

/-- Claim C5: the specification says a structurally invalid snapshot fails
with `FormatError` and leaves the previously loaded network untouched. The
code refutes both parts: importing an edge that references unknown nodes
throws a bare `TypeError` (no `FormatError` exists anywhere in the source),
and because `importFromJSON` clears the receiver before reading any record,
the previously loaded node `n_1` is destroyed — the final state is the
cleared network still holding the orphan edge stored before the throw. -/
theorem import_malformed_throws_and_clobbers_state :
    importFromJSON net1 badSnapshot =
      ({ nodes := [],
         edges := [("x-y", { fromId := "x", toId := "y", length := 5, time := 4 })],
         adjList := [], nextNodeId := 1 },
       some JSErr.typeError) ∧
    net1.nodes ≠ [] := by decide

/-- A point-in-polygon test for the overlay scenario: accessible means
longitude below 10 (any computable stand-in for the repository's undefined
`isPointInPolygon` works; the throw below happens for every choice that
separates the two endpoints). -/
def halfPlaneTest : GeoPoint → List GeoPoint → Bool :=
  fun p _ => decide (p.lng < 10)

/-- The base result for the overlay scenario: a 10×10 square. -/
def squareResult : OriginalResult :=
  { boundaryPoints := [⟨0,0⟩, ⟨10,0⟩, ⟨10,10⟩, ⟨0,10⟩],
    polygon := [⟨0,0⟩, ⟨10,0⟩, ⟨10,10⟩, ⟨0,10⟩],
    center := ⟨5,5⟩ }

/-- A test road from inside the square (5,5) to outside it (20,5), with a
walk time of 5 minutes, well within a 10-minute budget. -/
def roadOut : TestRoad :=
  { id := 1, startPoint := ⟨5,5⟩, endPoint := ⟨20,5⟩,
    length := 400, walkTime := 5, status := "active" }

/-- Claim C3: the specification says the enhanced reachable set is always a
superset of the base one. The code refutes it: `enhanceWithTestRoads`
implements the one-hop boundary heuristic (which the specification itself
forbids as a sole implementation) and, on the first active road that
crosses the boundary within budget, calls `.push` on a JavaScript `Set`
(TEST_ROAD_FEATURE.md:144) — `Set` has no `push` method, so the enhanced
computation throws a `TypeError` and produces no result at all. -/
theorem enhanceWithTestRoads_throws_typeError :
    enhanceWithTestRoads halfPlaneTest squareResult [roadOut] 10 =
      Except.error JSErr.typeError := by rfl

/-- Adding anything to `undefined` gives `NaN`. -/
theorem jadd_undef (t : JVal) : jadd JVal.undef t = JVal.nan := by
  cases t <;> rfl

/-- No value is `<` than `NaN`-tainted arithmetic. -/
theorem jlt_nan (d : JVal) : jlt JVal.nan d = false := by
  cases d <;> rfl

/-- Because the dequeued `currentDist` is always `undefined`, every
candidate distance is `NaN`, the strict-decrease test is false, and the
relaxation of a neighbour leaves the loop state untouched — in particular
nothing is ever enqueued. -/
theorem relaxNeighbor_undef (net : RoadNetwork) (c : String) (s : LoopState) (nb : String) :
    relaxNeighbor net c JVal.undef s nb = s := by
  unfold relaxNeighbor
  split
  · rfl
  · split
    · rfl
    · simp [jadd_undef, jlt_nan]

/-- Folding the no-op relaxation over any neighbour list is the identity. -/
theorem foldl_relax_undef (net : RoadNetwork) (c : String) :
    ∀ (l : List String) (s : LoopState), l.foldl (relaxNeighbor net c JVal.undef) s = s := by
  intro l
  induction l with
  | nil => intro s; rfl
  | cons a t ih => intro s; rw [List.foldl_cons, relaxNeighbor_undef]; exact ih s

/-- One loop iteration pops the head of the queue and at most marks a node
visited: distances and predecessors are unchanged and nothing is pushed. -/
theorem searchStep_shape (net : RoadNetwork) (b : ℚ) (st : LoopState) (item : PQItem)
    (rest : List PQItem) (h : st.pq = item :: rest) :
    ∃ v, searchStep net b st =
      { distances := st.distances, previous := st.previous, visited := v, pq := rest } := by
  unfold searchStep
  rw [h]
  by_cases hv : item.node ∈ st.visited
  · exact ⟨st.visited, by simp [hv]⟩
  · refine ⟨setAdd st.visited item.node, ?_⟩
    have hgt : jgt JVal.undef (JVal.num b) = false := rfl
    simp [hv, hgt, foldl_relax_undef]

/-- An empty queue stops the loop regardless of remaining fuel. -/
theorem searchGo_empty (net : RoadNetwork) (b : ℚ) :
    ∀ (n : ℕ) (st : LoopState), st.pq = [] → searchGo net b n st = st := by
  intro n st hst
  cases n with
  | zero => rfl
  | succ m =>
    show (match st.pq with
          | [] => st
          | _ :: _ => searchGo net b m (searchStep net b st)) = st
    rw [hst]

/-- With fuel left and a non-empty queue, the loop takes one step. -/
theorem searchGo_succ (net : RoadNetwork) (b : ℚ) (n : ℕ) (st : LoopState)
    (item : PQItem) (rest : List PQItem) (h : st.pq = item :: rest) :
    searchGo net b (n + 1) st = searchGo net b n (searchStep net b st) := by
  show (match st.pq with
        | [] => st
        | _ :: _ => searchGo net b n (searchStep net b st)) =
      searchGo net b n (searchStep net b st)
  rw [h]

/-- Claim C10: the priority-queue loop of `DijkstraSearch.search` executes
only finitely many iterations on every network, origin and budget. Indeed
the guard `if (visited.has(...)) continue` finalizes each node at most
once, and a push happens only under a strict decrease `newDist <
distances.get(neighborId)` — a comparison that, `currentDist` being the
`undefined` read of the absent `dist` field, is never true. Hence the
queue never grows past its single initial entry: one iteration empties it,
and any further fuel leaves the state fixed. -/
theorem search_loop_terminates (net : RoadNetwork) (o : String) (b : ℚ) :
    (searchGo net b 1 (initState net o)).pq = [] ∧
    ∀ fuel : ℕ, searchGo net b (fuel + 1) (initState net o) =
      searchGo net b 1 (initState net o) := by
  have hpq : (initState net o).pq = [{ node := o, priority := JVal.num 0 }] := rfl
  obtain ⟨v, hstep⟩ :=
    searchStep_shape net b (initState net o) { node := o, priority := JVal.num 0 } [] hpq
  have h1 : searchGo net b 1 (initState net o) = searchStep net b (initState net o) := by
    rw [searchGo_succ net b 0 (initState net o) _ [] hpq]
    rfl
  constructor
  · rw [h1, hstep]
  · intro fuel
    calc searchGo net b (fuel + 1) (initState net o)
        = searchGo net b fuel (searchStep net b (initState net o)) :=
          searchGo_succ net b fuel (initState net o) _ [] hpq
      _ = searchStep net b (initState net o) := searchGo_empty net b fuel _ (by rw [hstep])
      _ = searchGo net b 1 (initState net o) := h1.symm

/-- Membership in a set after `Set.delete`. -/
theorem mem_setDel {s : List String} {x y : String} :
    y ∈ setDel s x ↔ y ∈ s ∧ y ≠ x := by
  simp [setDel, List.mem_filter]

/-- Membership in a map after `Map.delete`. -/
theorem mem_mapDel {α : Type} {m : List (String × α)} {k : String} {p : String × α} :
    p ∈ mapDel m k ↔ p ∈ m ∧ p.1 ≠ k := by
  simp [mapDel, List.mem_filter]

/-- An entry of `mapSet m k v` is an old entry or the new binding. -/
theorem mem_mapSet {α : Type} {m : List (String × α)} {k : String} {v : α} {p : String × α}
    (h : p ∈ mapSet m k v) : p ∈ m ∨ p = (k, v) := by
  unfold mapSet at h
  split at h
  · obtain ⟨q, hq, hfq⟩ := List.mem_map.1 h
    by_cases hk : q.1 = k
    · right
      simp [hk] at hfq
      exact hfq.symm
    · left
      simp [hk] at hfq
      rwa [← hfq]
  · rcases List.mem_append.1 h with h1 | h1
    · exact Or.inl h1
    · right
      simpa using h1

/-- After `mapSet m k v`, every entry under key `k` is the new binding. -/
theorem mapSet_key_eq {α : Type} {m : List (String × α)} {k : String} {v : α} {p : String × α}
    (h : p ∈ mapSet m k v) (hk : p.1 = k) : p = (k, v) := by
  unfold mapSet at h
  split at h
  · obtain ⟨q, hq, hfq⟩ := List.mem_map.1 h
    by_cases hqk : q.1 = k
    · simp [hqk] at hfq
      exact hfq.symm
    · simp [hqk] at hfq
      rw [← hfq] at hk
      exact absurd hk hqk
  · next hno =>
    rcases List.mem_append.1 h with h1 | h1
    · exfalso
      apply hno
      simp only [List.any_eq_true]
      exact ⟨p, h1, by simp [hk]⟩
    · simpa using h1

/-- A successful `Map.get` exhibits a member entry. -/
theorem mapGet_eq_some_mem {α : Type} {m : List (String × α)} {k : String} {v : α}
    (h : mapGet m k = some v) : (k, v) ∈ m := by
  unfold mapGet at h
  cases hf : m.find? (fun p => p.1 == k) with
  | none => rw [hf] at h; simp at h
  | some q =>
    rw [hf] at h
    simp at h
    have hqm := List.mem_of_find?_eq_some hf
    have hqk := List.find?_some hf
    simp at hqk
    have hq : q = (k, v) := by
      cases q
      simp_all
    rwa [hq] at hqm

/-- A failed `Map.get` means no entry carries the key. -/
theorem mapGet_eq_none_forall {α : Type} {m : List (String × α)} {k : String}
    (h : mapGet m k = none) : ∀ p ∈ m, p.1 ≠ k := by
  unfold mapGet at h
  cases hf : m.find? (fun p => p.1 == k) with
  | some q => rw [hf] at h; simp at h
  | none =>
    intro p hp hpk
    have := List.find?_eq_none.1 hf p hp
    simp [hpk] at this

/-- `n1` refines `n2` by deletions only: every edge entry of `n1` is one of
`n2`, and every adjacency/connection set of `n1` is contained in the
corresponding one of `n2`. All the destructive steps of `removeEdge`
produce refinements in this sense. -/
def netLe (n1 n2 : RoadNetwork) : Prop :=
  (∀ p ∈ n1.edges, p ∈ n2.edges) ∧
  (∀ p ∈ n1.adjList, ∃ q ∈ n2.adjList, q.1 = p.1 ∧ ∀ y ∈ p.2, y ∈ q.2) ∧
  (∀ p ∈ n1.nodes, ∃ q ∈ n2.nodes, q.1 = p.1 ∧ ∀ y ∈ p.2.connections, y ∈ q.2.connections)

theorem netLe_refl (n : RoadNetwork) : netLe n n :=
  ⟨fun p hp => hp,
   fun p hp => ⟨p, hp, rfl, fun y hy => hy⟩,
   fun p hp => ⟨p, hp, rfl, fun y hy => hy⟩⟩

theorem netLe_trans {a b c : RoadNetwork} (h1 : netLe a b) (h2 : netLe b c) : netLe a c := by
  refine ⟨fun p hp => h2.1 p (h1.1 p hp), ?_, ?_⟩
  · intro p hp
    obtain ⟨q, hq, hq1, hq2⟩ := h1.2.1 p hp
    obtain ⟨r, hr, hr1, hr2⟩ := h2.2.1 q hq
    exact ⟨r, hr, hr1.trans hq1, fun y hy => hr2 y (hq2 y hy)⟩
  · intro p hp
    obtain ⟨q, hq, hq1, hq2⟩ := h1.2.2 p hp
    obtain ⟨r, hr, hr1, hr2⟩ := h2.2.2 q hq
    exact ⟨r, hr, hr1.trans hq1, fun y hy => hr2 y (hq2 y hy)⟩

theorem delAdjRef_netLe (net : RoadNetwork) (a b : String) : netLe (delAdjRef net a b) net := by
  unfold delAdjRef
  cases hg : mapGet net.adjList a with
  | none => exact netLe_refl net
  | some s =>
    refine ⟨fun p hp => hp, ?_, fun p hp => ⟨p, hp, rfl, fun y hy => hy⟩⟩
    intro p hp
    rcases mem_mapSet hp with h1 | h1
    · exact ⟨p, h1, rfl, fun y hy => hy⟩
    · subst h1
      exact ⟨(a, s), mapGet_eq_some_mem hg, rfl, fun y hy => (mem_setDel.1 hy).1⟩

theorem delConnRef_netLe (net : RoadNetwork) (a b : String) : netLe (delConnRef net a b) net := by
  unfold delConnRef
  cases hg : mapGet net.nodes a with
  | none => exact netLe_refl net
  | some nd =>
    refine ⟨fun p hp => hp, fun p hp => ⟨p, hp, rfl, fun y hy => hy⟩, ?_⟩
    intro p hp
    rcases mem_mapSet hp with h1 | h1
    · exact ⟨p, h1, rfl, fun y hy => hy⟩
    · subst h1
      exact ⟨(a, nd), mapGet_eq_some_mem hg, rfl, fun y hy => (mem_setDel.1 hy).1⟩

theorem removeEdge_netLe (net : RoadNetwork) (a b : String) : netLe (removeEdge net a b) net := by
  refine netLe_trans (delConnRef_netLe _ _ _)
    (netLe_trans (delConnRef_netLe _ _ _)
      (netLe_trans (delAdjRef_netLe _ _ _)
        (netLe_trans (delAdjRef_netLe _ _ _) ?_)))
  exact ⟨fun p hp => (mem_mapDel.1 (mem_mapDel.1 hp).1).1,
         fun p hp => ⟨p, hp, rfl, fun y hy => hy⟩,
         fun p hp => ⟨p, hp, rfl, fun y hy => hy⟩⟩

theorem delConnRef_adjList (net : RoadNetwork) (a b : String) :
    (delConnRef net a b).adjList = net.adjList := by
  unfold delConnRef
  cases mapGet net.nodes a <;> rfl

theorem delConnRef_edges (net : RoadNetwork) (a b : String) :
    (delConnRef net a b).edges = net.edges := by
  unfold delConnRef
  cases mapGet net.nodes a <;> rfl

theorem delAdjRef_edges (net : RoadNetwork) (a b : String) :
    (delAdjRef net a b).edges = net.edges := by
  unfold delAdjRef
  cases mapGet net.adjList a <;> rfl

/-- After `delAdjRef net a b`, the adjacency entry of `a` no longer holds
`b`. -/
theorem delAdjRef_kills (net : RoadNetwork) (a b : String) :
    ∀ p ∈ (delAdjRef net a b).adjList, p.1 = a → b ∉ p.2 := by
  unfold delAdjRef
  cases hg : mapGet net.adjList a with
  | none =>
    intro p hp hpa _
    exact mapGet_eq_none_forall hg p hp hpa
  | some s =>
    intro p hp hpa hb
    have hps := mapSet_key_eq hp hpa
    rw [hps] at hb
    exact (mem_setDel.1 hb).2 rfl

/-- After `delConnRef net a b`, the `connections` of node `a` no longer
hold `b`. -/
theorem delConnRef_kills (net : RoadNetwork) (a b : String) :
    ∀ p ∈ (delConnRef net a b).nodes, p.1 = a → b ∉ p.2.connections := by
  unfold delConnRef
  cases hg : mapGet net.nodes a with
  | none =>
    intro p hp hpa _
    exact mapGet_eq_none_forall hg p hp hpa
  | some nd =>
    intro p hp hpa hb
    have hps := mapSet_key_eq hp hpa
    rw [hps] at hb
    exact (mem_setDel.1 hb).2 rfl

theorem removeEdge_edges (net : RoadNetwork) (a b : String) :
    (removeEdge net a b).edges =
      mapDel (mapDel net.edges (a ++ "-" ++ b)) (b ++ "-" ++ a) := by
  unfold removeEdge
  rw [delConnRef_edges, delConnRef_edges, delAdjRef_edges, delAdjRef_edges]

/-- `removeEdge net a b` erases both directional keys of the pair. -/
theorem removeEdge_edgeKeys (net : RoadNetwork) (a b : String) :
    ∀ p ∈ (removeEdge net a b).edges, p.1 ≠ a ++ "-" ++ b ∧ p.1 ≠ b ++ "-" ++ a := by
  intro p hp
  rw [removeEdge_edges] at hp
  have h2 := mem_mapDel.1 hp
  have h1 := mem_mapDel.1 h2.1
  exact ⟨h1.2, h2.2⟩

theorem removeEdge_adjList_eq (net : RoadNetwork) (a b : String) :
    (removeEdge net a b).adjList =
      (delAdjRef (delAdjRef
        { net with edges := mapDel (mapDel net.edges (a ++ "-" ++ b)) (b ++ "-" ++ a) }
        a b) b a).adjList := by
  unfold removeEdge
  rw [delConnRef_adjList, delConnRef_adjList]

/-- `removeEdge net a b` removes `a` from `b`'s adjacency set. -/
theorem removeEdge_adjNoRef (net : RoadNetwork) (a b : String) :
    ∀ p ∈ (removeEdge net a b).adjList, p.1 = b → a ∉ p.2 := by
  rw [removeEdge_adjList_eq]
  exact delAdjRef_kills _ b a

/-- `removeEdge net a b` removes `a` from `b`'s `connections` set. -/
theorem removeEdge_connNoRef (net : RoadNetwork) (a b : String) :
    ∀ p ∈ (removeEdge net a b).nodes, p.1 = b → a ∉ p.2.connections :=
  delConnRef_kills _ b a

/-- No stored edge carries the given key. -/
def edgeKeyAbsent (net : RoadNetwork) (k : String) : Prop :=
  ∀ p ∈ net.edges, p.1 ≠ k

/-- The adjacency entry of `m`, if any, does not hold `x`. -/
def adjNoRef (net : RoadNetwork) (m x : String) : Prop :=
  ∀ p ∈ net.adjList, p.1 = m → x ∉ p.2

/-- The `connections` set of node `m`, if any, does not hold `x`. -/
def connNoRef (net : RoadNetwork) (m x : String) : Prop :=
  ∀ p ∈ net.nodes, p.1 = m → x ∉ p.2.connections

theorem edgeKeyAbsent_mono {n1 n2 : RoadNetwork} {k : String}
    (h : netLe n1 n2) (hk : edgeKeyAbsent n2 k) : edgeKeyAbsent n1 k :=
  fun p hp => hk p (h.1 p hp)

theorem adjNoRef_mono {n1 n2 : RoadNetwork} {m x : String}
    (h : netLe n1 n2) (hm : adjNoRef n2 m x) : adjNoRef n1 m x := by
  intro p hp hpm hx
  obtain ⟨q, hq, hq1, hq2⟩ := h.2.1 p hp
  exact hm q hq (hq1.trans hpm) (hq2 x hx)

theorem connNoRef_mono {n1 n2 : RoadNetwork} {m x : String}
    (h : netLe n1 n2) (hm : connNoRef n2 m x) : connNoRef n1 m x := by
  intro p hp hpm hx
  obtain ⟨q, hq, hq1, hq2⟩ := h.2.2 p hp
  exact hm q hq (hq1.trans hpm) (hq2 x hx)

/-- The cascade fold of `removeNode` only ever deletes. -/
theorem foldl_removeEdge_netLe (x : String) :
    ∀ (l : List String) (net : RoadNetwork),
      netLe (l.foldl (fun acc nb => removeEdge acc x nb) net) net := by
  intro l
  induction l with
  | nil => intro net; exact netLe_refl net
  | cons a t ih =>
    intro net
    rw [List.foldl_cons]
    exact netLe_trans (ih (removeEdge net x a)) (removeEdge_netLe net x a)

/-- After the cascade fold of `removeNode net x` over the neighbour list,
every processed neighbour `n` has lost both directional edge keys with `x`,
its adjacency reference to `x`, and its connection reference to `x`. -/
theorem foldl_removeEdge_kills (x : String) :
    ∀ (l : List String) (net : RoadNetwork) (n : String), n ∈ l →
      edgeKeyAbsent (l.foldl (fun acc nb => removeEdge acc x nb) net) (x ++ "-" ++ n) ∧
      edgeKeyAbsent (l.foldl (fun acc nb => removeEdge acc x nb) net) (n ++ "-" ++ x) ∧
      adjNoRef (l.foldl (fun acc nb => removeEdge acc x nb) net) n x ∧
      connNoRef (l.foldl (fun acc nb => removeEdge acc x nb) net) n x := by
  intro l
  induction l with
  | nil => intro net n hn; cases hn
  | cons a t ih =>
    intro net n hn
    rw [List.foldl_cons]
    rcases List.mem_cons.1 hn with rfl | hmem
    · have hle := foldl_removeEdge_netLe x t (removeEdge net x n)
      refine ⟨edgeKeyAbsent_mono hle ?_, edgeKeyAbsent_mono hle ?_,
              adjNoRef_mono hle ?_, connNoRef_mono hle ?_⟩
      · intro p hp
        exact (removeEdge_edgeKeys net x n p hp).1
      · intro p hp
        exact (removeEdge_edgeKeys net x n p hp).2
      · exact removeEdge_adjNoRef net x n
      · exact removeEdge_connNoRef net x n
    · exact ih (removeEdge net x a) n hmem

/-- The `connections` set recorded for node `x`, empty when `x` is not a
node. -/
def connectionsOf (net : RoadNetwork) (x : String) : List String :=
  ((mapGet net.nodes x).map (fun nd => nd.connections)).getD []

/-- The specification's Network invariants (§3 a, d) localized at `x`:
every stored reference to `x` — an edge touching `x`, an adjacency entry
holding `x`, or a `connections` set holding `x` — is mirrored in the
`connections` set of an existing node `x`, and edge keys touching `x` have
the shape `from + '-' + to`. Networks built through `addNode`/`addEdge`/
`removeEdge` satisfy this. -/
def RefsConsistentAt (net : RoadNetwork) (x : String) : Prop :=
  (∀ p ∈ net.edges, (p.2.fromId = x ∨ p.2.toId = x) →
     (mapGet net.nodes x).isSome = true ∧
     p.1 = p.2.fromId ++ "-" ++ p.2.toId ∧
     (p.2.fromId = x → p.2.toId ∈ connectionsOf net x) ∧
     (p.2.toId = x → p.2.fromId ∈ connectionsOf net x)) ∧
  (∀ p ∈ net.adjList, x ∈ p.2 →
     (mapGet net.nodes x).isSome = true ∧ p.1 ∈ connectionsOf net x) ∧
  (∀ p ∈ net.nodes, x ∈ p.2.connections →
     (mapGet net.nodes x).isSome = true ∧ p.1 ∈ connectionsOf net x)

/-- No adjacency set contains `x`, no stored edge references `x`, and no
node's `connections` set contains `x`. -/
def NoDanglingRefs (net : RoadNetwork) (x : String) : Prop :=
  (∀ p ∈ net.adjList, x ∉ p.2) ∧
  (∀ p ∈ net.edges, p.2.fromId ≠ x ∧ p.2.toId ≠ x) ∧
  (∀ p ∈ net.nodes, x ∉ p.2.connections)

instance (net : RoadNetwork) (x : String) : Decidable (RefsConsistentAt net x) := by
  unfold RefsConsistentAt
  infer_instance

instance (net : RoadNetwork) (x : String) : Decidable (NoDanglingRefs net x) := by
  unfold NoDanglingRefs
  infer_instance

/-- Claim C9: on every network satisfying the specification's
cross-reference invariant at `x`, after `removeNode(x)` no adjacency set
contains `x`, no stored edge references `x`, and no node's `connections`
set contains `x` — the cascade removes every incident edge and every
reference, leaving no dangling ids. -/
theorem removeNode_no_dangling (net : RoadNetwork) (x : String)
    (h : RefsConsistentAt net x) : NoDanglingRefs (removeNode net x) x := by
  obtain ⟨he, ha, hc⟩ := h
  unfold removeNode
  cases hx : mapGet net.nodes x with
  | none =>
    refine ⟨?_, ?_, ?_⟩
    · intro p hp hxmem
      have hs := (ha p hp hxmem).1
      rw [hx] at hs
      simp at hs
    · intro p hp
      constructor
      · intro heq
        have hs := (he p hp (Or.inl heq)).1
        rw [hx] at hs
        simp at hs
      · intro heq
        have hs := (he p hp (Or.inr heq)).1
        rw [hx] at hs
        simp at hs
    · intro p hp hxmem
      have hs := (hc p hp hxmem).1
      rw [hx] at hs
      simp at hs
  | some nd =>
    have hco : connectionsOf net x = nd.connections := by
      unfold connectionsOf
      rw [hx]
      rfl
    show NoDanglingRefs
      { nd.connections.foldl (fun acc nb => removeEdge acc x nb) net with
        nodes := mapDel (nd.connections.foldl (fun acc nb => removeEdge acc x nb) net).nodes x,
        adjList := mapDel (nd.connections.foldl (fun acc nb => removeEdge acc x nb) net).adjList x } x
    set net1 := nd.connections.foldl (fun acc nb => removeEdge acc x nb) net with hnet1
    have hle : netLe net1 net := foldl_removeEdge_netLe x nd.connections net
    refine ⟨?_, ?_, ?_⟩
    · intro p hp hxmem
      have hp1 := (mem_mapDel.1 hp).1
      obtain ⟨q, hq, hq1, hq2⟩ := hle.2.1 p hp1
      have hqconn := (ha q hq (hq2 x hxmem)).2
      rw [hco] at hqconn
      have hkill := (foldl_removeEdge_kills x nd.connections net q.1 hqconn).2.2.1
      exact hkill p hp1 hq1.symm hxmem
    · intro p hp
      have hpnet := hle.1 p hp
      constructor
      · intro heq
        obtain ⟨-, hkey, hfwd, -⟩ := he p hpnet (Or.inl heq)
        have hto := hfwd heq
        rw [hco] at hto
        have hkill := (foldl_removeEdge_kills x nd.connections net p.2.toId hto).1
        apply hkill p hp
        rw [hkey, heq]
      · intro heq
        obtain ⟨-, hkey, -, hbwd⟩ := he p hpnet (Or.inr heq)
        have hfrom := hbwd heq
        rw [hco] at hfrom
        have hkill := (foldl_removeEdge_kills x nd.connections net p.2.fromId hfrom).2.1
        apply hkill p hp
        rw [hkey, heq]
    · intro p hp hxmem
      have hp1 := (mem_mapDel.1 hp).1
      obtain ⟨q, hq, hq1, hq2⟩ := hle.2.2 p hp1
      have hqconn := (hc q hq (hq2 x hxmem)).2
      rw [hco] at hqconn
      have hkill := (foldl_removeEdge_kills x nd.connections net q.1 hqconn).2.2.2
      exact hkill p hp1 hq1.symm hxmem

/-- Witness for `removeNode_no_dangling`: the concrete three-node line
satisfies the cross-reference invariant at `n_2`, and removing `n_2` from
it leaves no dangling reference to `n_2`. -/
theorem removeNode_no_dangling_witness :
    RefsConsistentAt netABC "n_2" ∧ NoDanglingRefs (removeNode netABC "n_2") "n_2" :=
  ⟨by decide, removeNode_no_dangling netABC "n_2" (by decide)⟩
